import Mathlib

/-!
Verification development for the waha-wrapper client library.

The Python sources embedded here are:
  * `src/waha_python_wrapper/errors.py`  — exception classes and `handle_error`
  * `src/waha_python_wrapper/tools.py`   — `Methods`, `handle_response`,
    `populate_path_params`, `plain_path_wrapper`, `path_param_wrapper`
  * `src/waha_python_wrapper/config.py`  — `WAHAConfig`

Conventions of the embedding:
  * JSON documents are the inductive `JsonValue`; the result of
    `await resp.json()` is an `Except JsonFail JsonValue` stored in the
    modelled `ClientResponse` (an `Except.error` means the call raised).
  * A pydantic model class is modelled abstractly as a pair of functions
    `model_validate` (returning `none` when validation raises
    `ValidationError`) and `model_dump` (the `by_alias=True` dump).
  * `async def f` bodies are modelled as functions returning a `RunOutcome`:
    what happens when the coroutine is awaited.  Calling an async function
    without awaiting it yields a coroutine object; where the source does
    that, the embedding keeps the suspended call as data (see `CallResult`).
  * Python semantics follow CPython 3.10/3.11 (the version range implied by
    the `Methods | str` annotation), where `Enum` member access on a member
    still resolves to the sibling member.
-/

/-- A decoded JSON document (the possible results of `await resp.json()`). -/
inductive JsonValue : Type where
  | null : JsonValue
  | bool (b : Bool) : JsonValue
  | num (n : Int) : JsonValue
  | str (s : String) : JsonValue
  | arr (elems : List JsonValue) : JsonValue
  | obj (fields : List (String × JsonValue)) : JsonValue
deriving Repr

/-- Ways `await resp.json()` can raise: wrong content type, a body that is
not valid JSON, or any other exception (`errors.py` catches all three
separately). -/
inductive JsonFail : Type where
  | contentTypeError : JsonFail
  | jsonDecodeError : JsonFail
  | otherError : JsonFail
deriving Repr, DecidableEq

/-- The observable part of an `aiohttp.ClientResponse`: its URL, its status
code, and what `await resp.json()` yields (`Except.error` when it raises).
Note that aiohttp returns `None` — here `JsonValue.null` — for an empty body
with a JSON content type, and `json.loads "null"` is also `None`. -/
structure ClientResponse : Type where
  url : String
  status : Nat
  jsonBody : Except JsonFail JsonValue
deriving Repr

/-- The Python exceptions the embedded code can raise.
`baseAPIException` and `apiError` carry the fields set by `errors.py`
(`url`, `code`, `expected_code`, `resp`, and for `APIError` also
`error_resp`).  `typeError` is CPython's `TypeError: exceptions must derive
from BaseException`, raised when a `raise` statement is given a value that
is not an exception (such as an un-awaited coroutine object). -/
inductive PyExc : Type where
  | baseAPIException (url : String) (code : Nat) (expected_code : Nat)
      (resp : ClientResponse) : PyExc
  | apiError (url : String) (code : Nat) (expected_code : Nat)
      (resp : ClientResponse) (error_resp : JsonValue) : PyExc
  | validationError : PyExc
  | typeError : PyExc
  | valueError : PyExc
  | jsonRaise (e : JsonFail) : PyExc
deriving Repr

/-- What running (awaiting) a coroutine body does: return a value or raise. -/
inductive RunOutcome (α : Type) : Type where
  | returns (v : α) : RunOutcome α
  | raises (e : PyExc) : RunOutcome α
deriving Repr

/-- Embedding of `errors.py`, `handle_error` (the body of the coroutine, as
run when awaited).

```
content = None
try:
    content = await resp.json()
except ContentTypeError: ...
except json.JSONDecodeError: ...
except Exception as e: ...
if content is None:
    raise BaseAPIException(url=str(resp.url), code=resp.status,
                           expected_code=expected_code, resp=resp)
else:
    raise APIError(url=str(resp.url), code=resp.status,
                   expected_code=expected_code, resp=resp, error_resp=content)
```

Every exception from `resp.json()` is caught and leaves `content = None`;
a successful decode assigns the decoded document.  Since decoded JSON
`null` *is* the Python object `None`, the `if content is None` test is true
both when decoding failed and when the body decoded to `null`. -/
def handle_error (resp : ClientResponse) (expected_code : Nat) :
    RunOutcome Unit :=
  let content : Option JsonValue :=
    match resp.jsonBody with
    | Except.error _ => none
    | Except.ok v => some v
  match content with
  | none =>
      RunOutcome.raises
        (PyExc.baseAPIException resp.url resp.status expected_code resp)
  | some JsonValue.null =>
      -- decoded JSON null is the Python object None: `content is None` holds
      RunOutcome.raises
        (PyExc.baseAPIException resp.url resp.status expected_code resp)
  | some v =>
      RunOutcome.raises
        (PyExc.apiError resp.url resp.status expected_code resp v)

/-- A pydantic model class, abstractly: `model_validate` returns `none` when
validation raises `ValidationError`, otherwise the validated instance
(represented by its data); `model_dump` is the `by_alias=True` dump of an
instance. -/
structure Model : Type where
  model_validate : JsonValue → Option JsonValue
  model_dump : JsonValue → JsonValue

/-- Embedding of `tools.py`, `handle_response` (the body of the coroutine,
as run when awaited).

```
if not resp.status != expected_code:
    raise handle_error(resp=resp, expected_code=expected_code)
resp_data = response_model.model_validate(await resp.json())
return resp_data
```

`not resp.status != expected_code` is `resp.status == expected_code`.
`handle_error` is `async def`, so `handle_error(...)` builds a coroutine
object without running it, and `raise` applied to a coroutine object raises
`TypeError`.  On the other branch, an exception from `await resp.json()`
propagates uncaught, and `model_validate` may raise `ValidationError`. -/
def handle_response (response_model : Model) (resp : ClientResponse)
    (expected_code : Nat) : RunOutcome JsonValue :=
  if ¬ (resp.status ≠ expected_code) then
    RunOutcome.raises PyExc.typeError
  else
    match resp.jsonBody with
    | Except.error e => RunOutcome.raises (PyExc.jsonRaise e)
    | Except.ok v =>
      match response_model.model_validate v with
      | none => RunOutcome.raises PyExc.validationError
      | some resp_data => RunOutcome.returns resp_data

/-- The identity model: validation always succeeds and returns the document
itself, and dumping an instance returns its data unchanged.  Used as a
concrete model in witnesses and counterexamples. -/
def idModel : Model :=
  { model_validate := fun v => some v, model_dump := fun v => v }

/-- Embedding of `tools.py`, `class Methods(str, Enum)`. -/
inductive Methods : Type where
  | GET : Methods
  | HEAD : Methods
  | POST : Methods
  | PUT : Methods
  | DELETE : Methods
  | CONNECT : Methods
  | OPTIONS : Methods
  | TRACE : Methods
  | PATCH : Methods
deriving Repr, DecidableEq

/-- Enum lookup by value, `Methods(s)`: returns the member whose value is
`s`, or raises `ValueError` (here: `none`). -/
def Methods.ofValue : String → Option Methods
  | "GET" => some Methods.GET
  | "HEAD" => some Methods.HEAD
  | "POST" => some Methods.POST
  | "PUT" => some Methods.PUT
  | "DELETE" => some Methods.DELETE
  | "CONNECT" => some Methods.CONNECT
  | "OPTIONS" => some Methods.OPTIONS
  | "TRACE" => some Methods.TRACE
  | "PATCH" => some Methods.PATCH
  | _ => none

/-- Python `str.upper()` (ASCII inputs, as used on HTTP verb names). -/
def pyUpper (s : String) : String :=
  ⟨s.data.map Char.toUpper⟩

/-- The `method` argument of the wrapper factories: `Methods | str`. -/
inductive MethodArg : Type where
  | enum (m : Methods) : MethodArg
  | str (s : String) : MethodArg
deriving Repr, DecidableEq

/-- How `plain_path_wrapper` / `path_param_wrapper` can leave their
method-dispatch logic: returning a generated `api_call` for one of the five
handled verbs, or raising. -/
inductive WrapperResult : Type where
  | callable (m : Methods) : WrapperResult
  | valueError : WrapperResult
  | attributeError : WrapperResult
deriving Repr, DecidableEq

/-- Embedding of the method parsing and dispatch shared by
`plain_path_wrapper` and `path_param_wrapper` (tools.py lines 96-108 and the
`if parsed_method == method.GET: ... elif ... else: raise ValueError`
chain; both factories are identical in this respect).

```
if not isinstance(method, Methods):
    try:
        parsed_method = Methods(str(method).upper())
    except ValueError:
        raise ValueError(...)
else:
    parsed_method = method
if parsed_method == method.GET: ...      # note: `method`, not `Methods`
elif parsed_method == method.POST: ...
elif parsed_method == method.PUT: ...
elif parsed_method == method.DELETE: ...
elif parsed_method == method.PATCH: ...
else: raise ValueError(...)
```

The dispatch chain reads the attribute `GET` (then possibly `POST`, ...)
on `method`, the *original argument*.  When the caller passed a string,
`str` has no attribute `GET`, so the very first comparison raises
`AttributeError`.  When the caller passed a `Methods` member,
member-on-member access resolves to the sibling member (CPython ≤ 3.11),
so the chain compares against `Methods.GET`, ..., `Methods.PATCH`. -/
def wrapper_method_dispatch (method : MethodArg) : WrapperResult :=
  let parsed_method : Option Methods :=
    match method with
    | MethodArg.str s => Methods.ofValue (pyUpper s)
    | MethodArg.enum m => some m
  match parsed_method with
  | none => WrapperResult.valueError
  | some parsed =>
    match method with
    | MethodArg.str _ => WrapperResult.attributeError
    | MethodArg.enum _ =>
      if parsed = Methods.GET then WrapperResult.callable Methods.GET
      else if parsed = Methods.POST then WrapperResult.callable Methods.POST
      else if parsed = Methods.PUT then WrapperResult.callable Methods.PUT
      else if parsed = Methods.DELETE then WrapperResult.callable Methods.DELETE
      else if parsed = Methods.PATCH then WrapperResult.callable Methods.PATCH
      else WrapperResult.valueError

/-- Embedding of Python `str.replace(old, new)` on character lists, where
the pattern is `pHead :: pTail` (the patterns used by the source, `"{" + key
+ "}"`, are never empty).  Occurrences are replaced left to right,
non-overlapping.  `fuel` bounds the recursion; `fuel = s.length` always
suffices (see `replaceAllF_fuel`). -/
def replaceAllF (pHead : Char) (pTail rep : List Char) :
    Nat → List Char → List Char
  | 0, s => s
  | _ + 1, [] => []
  | fuel + 1, c :: rest =>
    if (pHead :: pTail).isPrefixOf (c :: rest) then
      rep ++ replaceAllF pHead pTail rep fuel (rest.drop pTail.length)
    else
      c :: replaceAllF pHead pTail rep fuel rest

/-- Python `s.replace(pHead :: pTail, rep)` on character lists. -/
def replaceAll (pHead : Char) (pTail rep s : List Char) : List Char :=
  replaceAllF pHead pTail rep s.length s

/-- Embedding of `tools.py`, `populate_path_params`.

```
for key, value in lookup.items():
    filled_key = "{" + key + "}"
    path = path.replace(f'{filled_key}', value)
return path
```

The dict is modelled as an association list in iteration (= insertion)
order; `f'{filled_key}'` is just `filled_key`. -/
def populate_path_params (path : String) (lookup : List (String × String)) :
    String :=
  ⟨lookup.foldl
    (fun p kv => replaceAll '{' (kv.1.data ++ ['}']) kv.2.data p)
    path.data⟩

/-- One attempted match of the pattern `/{[a-zA-Z]*}/?` at the current
position: on success, the matched text and the remainder of the input.
`[a-zA-Z]*` is maximal munch (backtracking cannot help it, since an
alphabetic character can never match the following `}`), and the optional
trailing `/` is taken greedily, exactly as the `re` module does. -/
def matchPathParam : List Char → Option (List Char × List Char)
  | '/' :: '{' :: rest =>
    let name := rest.takeWhile Char.isAlpha
    match rest.dropWhile Char.isAlpha with
    | '}' :: '/' :: r => some ('/' :: '{' :: (name ++ ['}', '/']), r)
    | '}' :: r => some ('/' :: '{' :: (name ++ ['}']), r)
    | _ => none
  | _ => none

/-- `re.findall` for the pattern `/{[a-zA-Z]*}/?`: leftmost, non-overlapping
matches, scanning resuming after each match.  `fuel = s.length` suffices
because every match consumes at least one character. -/
def findallPathParamsF : Nat → List Char → List (List Char)
  | 0, _ => []
  | _ + 1, [] => []
  | fuel + 1, c :: rest =>
    match matchPathParam (c :: rest) with
    | some (m, r) => m :: findallPathParamsF fuel r
    | none => findallPathParamsF fuel rest

/-- Embedding of the path-parameter extraction at the top of
`path_param_wrapper` (tools.py lines 336-340).

```
pattern = re.compile(r'/{[a-zA-Z]*}/?')
path_params = pattern.findall(path)
cleaned_args = []
for param in path_params:
    cleaned_args.append(param.replace("/", "").replace("{", "").replace("}", ""))
```

Replacing a single character by the empty string deletes all its
occurrences, so the chained replaces are the chained single-character
filters below. -/
def cleaned_args (path : String) : List String :=
  (findallPathParamsF path.data.length path.data).map
    (fun param =>
      ⟨((param.filter (fun c => ¬ c = '/')).filter
          (fun c => ¬ c = '{')).filter (fun c => ¬ c = '}')⟩)

/-- Python `set(a) == set(b)` for lists of strings. -/
def pySetEq (a b : List String) : Bool :=
  a.all (fun x => b.contains x) && b.all (fun x => a.contains x)

/-- Embedding of `config.py`, `WAHAConfig`. -/
structure WAHAConfig : Type where
  waha_url : String

/-- An HTTP request as assembled by a generated `api_call`: the verb, the
target URL, the dumped query-parameter model and (for body-carrying verbs)
the dumped request body sent as `json=...`. -/
structure HttpRequest : Type where
  method : Methods
  url : String
  params : JsonValue
  body : Option JsonValue

/-- What a single invocation of a generated `api_call` evaluates to.
Because the source returns `handle_response(...)` without `await`, a
successful run hands back the *coroutine object* of `handle_response`,
holding the captured `response_model`, `resp` and `expected_code`;
no branch returns a validated model instance. -/
inductive CallResult : Type where
  | coroutine (response_model : Model) (resp : ClientResponse)
      (expected_code : Nat) : CallResult
  | raises (e : PyExc) : CallResult

/-- A full run of a generated `api_call`: the HTTP requests it issued (in
order), and its result. -/
structure CallTrace : Type where
  sent : List HttpRequest
  result : CallResult

/-- Embedding of the `api_call` generated by `plain_path_wrapper` for GET
(tools.py lines 112-140).  `send` is the HTTP transport
(`session.get(...)` → response); the two source branches on `session is
None` issue the identical request through either an ad-hoc or the supplied
session.

```
async def api_call(cfg, params=None, session=None):
    if params is None:
        params = params_model.model_validate(param_defaults)
    target_url = f'{cfg.waha_url}{path}'
    ... async with session.get(target_url,
                               params=params.model_dump(by_alias=True)) as resp:
        return handle_response(response_model=response_model, resp=resp,
                               expected_code=expected_code)
```

`model_validate` of the defaults may raise `ValidationError` before any
request is made; the final `return` is missing an `await`, so the call
returns the un-run coroutine of `handle_response`. -/
def plain_get_api_call (path : String) (params_model response_model : Model)
    (expected_code : Nat) (param_defaults : JsonValue) (cfg : WAHAConfig)
    (params : Option JsonValue) (session : Option Unit)
    (send : HttpRequest → ClientResponse) : CallTrace :=
  let validated : Option JsonValue :=
    match params with
    | none => params_model.model_validate param_defaults
    | some p => some p
  match validated with
  | none => ⟨[], CallResult.raises PyExc.validationError⟩
  | some p =>
    let target_url := cfg.waha_url ++ path
    let req : HttpRequest :=
      { method := Methods.GET, url := target_url,
        params := params_model.model_dump p, body := none }
    let resp := send req
    match session with
    | none => ⟨[req], CallResult.coroutine response_model resp expected_code⟩
    | some _ => ⟨[req], CallResult.coroutine response_model resp expected_code⟩

/-- Embedding of the `api_call` generated by `plain_path_wrapper` for POST
(tools.py lines 144-179); PUT and PATCH are textually identical up to the
verb.  Parameter defaults are validated before body defaults, matching the
source order, so a failing parameter validation raises first. -/
def plain_post_api_call (path : String)
    (params_model request_model response_model : Model)
    (expected_code : Nat) (body_defaults param_defaults : JsonValue)
    (cfg : WAHAConfig) (params body : Option JsonValue)
    (session : Option Unit) (send : HttpRequest → ClientResponse) :
    CallTrace :=
  let validatedParams : Option JsonValue :=
    match params with
    | none => params_model.model_validate param_defaults
    | some p => some p
  match validatedParams with
  | none => ⟨[], CallResult.raises PyExc.validationError⟩
  | some p =>
    let validatedBody : Option JsonValue :=
      match body with
      | none => request_model.model_validate body_defaults
      | some b => some b
    match validatedBody with
    | none => ⟨[], CallResult.raises PyExc.validationError⟩
    | some b =>
      let target_url := cfg.waha_url ++ path
      let req : HttpRequest :=
        { method := Methods.POST, url := target_url,
          params := params_model.model_dump p,
          body := some (request_model.model_dump b) }
      let resp := send req
      match session with
      | none => ⟨[req], CallResult.coroutine response_model resp expected_code⟩
      | some _ => ⟨[req], CallResult.coroutine response_model resp expected_code⟩

/-- Embedding of the `api_call` generated by `path_param_wrapper` for GET
(tools.py lines 364-397).  `kwargs` is the keyword-argument dict, as an
association list.

```
async def api_call(cfg, params=None, session=None, **kwargs):
    if set(kwargs.keys()) != set(cleaned_args):
        raise ValueError(f"Expected path params {cleaned_args}, ...")
    if params is None:
        params = params_model.model_validate(param_defaults)
    target_url = f'{cfg.waha_url}{populate_path_params(path, kwargs)}'
    ... return handle_response(...)
``` -/
def path_param_get_api_call (path : String)
    (params_model response_model : Model) (expected_code : Nat)
    (param_defaults : JsonValue) (cfg : WAHAConfig)
    (params : Option JsonValue) (session : Option Unit)
    (kwargs : List (String × String)) (send : HttpRequest → ClientResponse) :
    CallTrace :=
  if pySetEq (kwargs.map Prod.fst) (cleaned_args path) then
    let validated : Option JsonValue :=
      match params with
      | none => params_model.model_validate param_defaults
      | some p => some p
    match validated with
    | none => ⟨[], CallResult.raises PyExc.validationError⟩
    | some p =>
      let target_url := cfg.waha_url ++ populate_path_params path kwargs
      let req : HttpRequest :=
        { method := Methods.GET, url := target_url,
          params := params_model.model_dump p, body := none }
      let resp := send req
      match session with
      | none => ⟨[req], CallResult.coroutine response_model resp expected_code⟩
      | some _ => ⟨[req], CallResult.coroutine response_model resp expected_code⟩
  else
    -- the set mismatch raises ValueError before anything else happens
    ⟨[], CallResult.raises PyExc.valueError⟩

/-- The placeholder text `"{" + key + "}"` built by `populate_path_params`,
as a character list. -/
def phList (k : String) : List Char :=
  '{' :: (k.data ++ ['}'])

/-- The loop of `populate_path_params` on character lists (definitionally
the body of `populate_path_params`). -/
def applySeq (lookup : List (String × String)) (s : List Char) : List Char :=
  lookup.foldl (fun p kv => replaceAll '{' (kv.1.data ++ ['}']) kv.2.data p) s

/-- Well-formedness of a lookup mapping for simultaneous-substitution
behaviour: keys contain no braces and values contain no opening brace. -/
def GoodLookup (L : List (String × String)) : Prop :=
  ∀ kv ∈ L, '{' ∉ kv.1.data ∧ '}' ∉ kv.1.data ∧ '{' ∉ kv.2.data

/-- The value a key is mapped to (first binding wins, as in a dict built in
iteration order). -/
def lookupVal (L : List (String × String)) (k : String) : List Char :=
  match L.find? (fun kv => kv.1 == k) with
  | some kv => kv.2.data
  | none => []

/-- A path template presented as its decomposition into literal chunks and
placeholders: `flattenPh [(t₁,k₁),...,(tₙ,kₙ)] tail` is
`t₁ ++ "{k₁}" ++ ... ++ tₙ ++ "{kₙ}" ++ tail`. -/
def flattenPh (decomp : List (List Char × String)) (tail : List Char) :
    List Char :=
  decomp.foldr (fun ts acc => ts.1 ++ phList ts.2 ++ acc) tail

/-- The same decomposition with every placeholder replaced by its mapped
value — the simultaneous-substitution reading of the specification. -/
def flattenVal (L : List (String × String))
    (decomp : List (List Char × String)) (tail : List Char) : List Char :=
  decomp.foldr (fun ts acc => ts.1 ++ lookupVal L ts.2 ++ acc) tail

theorem replaceAllF_fuel (pHead : Char) (pTail rep : List Char) :
    ∀ (f g : Nat) (s : List Char), s.length ≤ f → s.length ≤ g →
      replaceAllF pHead pTail rep f s = replaceAllF pHead pTail rep g s := by
  intro f
  induction f with
  | zero =>
    intro g s hf _
    have : s = [] := List.length_eq_zero.mp (Nat.le_zero.mp hf)
    subst this
    cases g <;> rfl
  | succ f ih =>
    intro g s hf hg
    cases s with
    | nil => cases g <;> rfl
    | cons c rest =>
      cases g with
      | zero => exact absurd hg (by simp)
      | succ g =>
        simp only [replaceAllF]
        by_cases h : (pHead :: pTail).isPrefixOf (c :: rest) = true
        · rw [if_pos h, if_pos h]
          have hlen : (rest.drop pTail.length).length ≤ rest.length := by
            simp
          have hf' : (rest.drop pTail.length).length ≤ f :=
            le_trans hlen (Nat.le_of_succ_le_succ hf)
          have hg' : (rest.drop pTail.length).length ≤ g :=
            le_trans hlen (Nat.le_of_succ_le_succ hg)
          rw [ih g _ hf' hg']
        · rw [if_neg h, if_neg h]
          rw [ih g rest (Nat.le_of_succ_le_succ hf) (Nat.le_of_succ_le_succ hg)]

theorem replaceAll_nil (pHead : Char) (pTail rep : List Char) :
    replaceAll pHead pTail rep [] = [] := rfl

theorem replaceAll_cons (pHead : Char) (pTail rep : List Char) (c : Char)
    (rest : List Char) :
    replaceAll pHead pTail rep (c :: rest) =
      if (pHead :: pTail).isPrefixOf (c :: rest) then
        rep ++ replaceAll pHead pTail rep (rest.drop pTail.length)
      else
        c :: replaceAll pHead pTail rep rest := by
  show replaceAllF pHead pTail rep (rest.length + 1) (c :: rest) = _
  simp only [replaceAllF]
  by_cases h : (pHead :: pTail).isPrefixOf (c :: rest) = true
  · rw [if_pos h, if_pos h]
    show _ ++ replaceAllF pHead pTail rep rest.length _ = _
    rw [replaceAllF_fuel pHead pTail rep rest.length
      (rest.drop pTail.length).length (rest.drop pTail.length) (by simp)
      (le_refl _)]
    rfl
  · rw [if_neg h, if_neg h]
    rfl

theorem populate_path_params_eq_applySeq (path : String)
    (lookup : List (String × String)) :
    populate_path_params path lookup = ⟨applySeq lookup path.data⟩ := rfl

theorem applySeq_cons (kv : String × String) (L : List (String × String))
    (s : List Char) :
    applySeq (kv :: L) s =
      applySeq L (replaceAll '{' (kv.1.data ++ ['}']) kv.2.data s) := rfl

theorem isPrefixOf_true_iff (l₁ l₂ : List Char) :
    l₁.isPrefixOf l₂ = true ↔ l₁ <+: l₂ :=
  List.isPrefixOf_iff_prefix

/-- A replace whose pattern starts with `'{'` passes over any chunk that
contains no `'{'`. -/
theorem replaceAll_noOpen (pTail rep u X : List Char) (hu : '{' ∉ u) :
    replaceAll '{' pTail rep (u ++ X) = u ++ replaceAll '{' pTail rep X := by
  induction u with
  | nil => simp
  | cons c u ih =>
    have hc : ('{' : Char) ≠ c := fun h => hu (h ▸ List.mem_cons_self c u)
    rw [List.cons_append, replaceAll_cons]
    have hpre : (('{' : Char) :: pTail).isPrefixOf (c :: (u ++ X)) = false := by
      simp only [List.isPrefixOf, Bool.and_eq_false_iff]
      exact Or.inl (by simpa using hc)
    rw [hpre, if_neg (by simp)]
    rw [ih (fun h => hu (List.mem_cons_of_mem c h)), List.cons_append]

/-- A replace whose pattern starts with `'{'` fixes any string with no
`'{'` in it. -/
theorem replaceAll_noOpen_fix (pTail rep u : List Char) (hu : '{' ∉ u) :
    replaceAll '{' pTail rep u = u := by
  have h := replaceAll_noOpen pTail rep u [] hu
  have h0 : replaceAll '{' pTail rep ([] : List Char) = [] := rfl
  rw [List.append_nil, h0, List.append_nil] at h
  exact h

/-- Replacing `"{k}"` at an occurrence of `phList k` substitutes it and
continues after it. -/
theorem replaceAll_at_ph (k : String) (v X : List Char) :
    replaceAll '{' (k.data ++ ['}']) v (phList k ++ X) =
      v ++ replaceAll '{' (k.data ++ ['}']) v X := by
  rw [phList, List.cons_append, replaceAll_cons]
  have hpre : (('{' : Char) :: (k.data ++ ['}'])).isPrefixOf
      ('{' :: ((k.data ++ ['}']) ++ X)) = true := by
    rw [isPrefixOf_true_iff]
    exact List.cons_prefix_cons.mpr ⟨rfl, List.prefix_append _ _⟩
  rw [hpre, if_pos rfl, List.drop_left]

/-- Two closing-brace-terminated words agree when one placeholder is a
prefix of text beginning with the other. -/
theorem close_brace_eq (a b r : List Char) (ha : '}' ∉ a) (hb : '}' ∉ b)
    (h : (a ++ ['}']) <+: (b ++ '}' :: r)) : a = b := by
  induction a generalizing b with
  | nil =>
    cases b with
    | nil => rfl
    | cons d b' =>
      exfalso
      have h' : ('}' : Char) :: ([] : List Char) <+: d :: (b' ++ '}' :: r) := by
        simpa using h
      have h1 := (List.cons_prefix_cons.mp h').1
      exact hb (by rw [h1]; exact List.mem_cons_self d b')
  | cons c a' ih =>
    cases b with
    | nil =>
      exfalso
      have h' : c :: (a' ++ ['}']) <+: ('}' : Char) :: r := by
        simpa using h
      have h1 := (List.cons_prefix_cons.mp h').1
      exact ha (by rw [← h1]; exact List.mem_cons_self c a')
    | cons d b' =>
      have h' : c :: (a' ++ ['}']) <+: d :: (b' ++ '}' :: r) := by
        simpa using h
      obtain ⟨h1, h2⟩ := List.cons_prefix_cons.mp h'
      have h3 := ih b' (fun hm => ha (List.mem_cons_of_mem c hm))
        (fun hm => hb (List.mem_cons_of_mem d hm)) h2
      rw [h1, h3]

/-- Distinct brace-free keys have non-overlapping placeholders: the
placeholder of `k₀` never begins where the placeholder of `k` begins. -/
theorem phList_isPrefixOf_false (k₀ k : String) (X : List Char)
    (hne : k₀ ≠ k) (h₀ : '}' ∉ k₀.data) (hk : '}' ∉ k.data) :
    (phList k₀).isPrefixOf (phList k ++ X) = false := by
  rw [Bool.eq_false_iff]
  intro htrue
  have hpre := (isPrefixOf_true_iff _ _).mp htrue
  rw [phList, phList, List.cons_append] at hpre
  rcases List.cons_prefix_cons.mp hpre with ⟨_, h2⟩
  have h3 : (k₀.data ++ ['}']) <+: (k.data ++ '}' :: X) := by
    simpa [List.append_assoc] using h2
  have hdata : k₀.data = k.data := close_brace_eq _ _ _ h₀ hk h3
  exact hne (congrArg String.mk hdata)

/-- A replace for the placeholder of `k₀` passes over the placeholder of a
different brace-free key `k`. -/
theorem replaceAll_ph_pass (k₀ : String) (v : List Char) (k : String)
    (X : List Char) (hne : k₀ ≠ k) (h₀ : '}' ∉ k₀.data)
    (hk₁ : '}' ∉ k.data) (hk₂ : '{' ∉ k.data) :
    replaceAll '{' (k₀.data ++ ['}']) v (phList k ++ X) =
      phList k ++ replaceAll '{' (k₀.data ++ ['}']) v X := by
  have hpre := phList_isPrefixOf_false k₀ k X hne h₀ hk₁
  show replaceAll '{' (k₀.data ++ ['}']) v ('{' :: ((k.data ++ ['}']) ++ X)) = _
  rw [replaceAll_cons]
  rw [show (('{' : Char) :: (k₀.data ++ ['}'])).isPrefixOf
      ('{' :: ((k.data ++ ['}']) ++ X)) =
      (phList k₀).isPrefixOf (phList k ++ X) from rfl]
  rw [hpre, if_neg (by simp)]
  have hu : ('{' : Char) ∉ (k.data ++ ['}']) := by
    intro hm
    rcases List.mem_append.mp hm with hm | hm
    · exact hk₂ hm
    · simp at hm
  rw [replaceAll_noOpen _ _ _ _ hu]
  rfl

/-- `applySeq` passes over any chunk with no `'{'`. -/
theorem applySeq_noOpen (L : List (String × String)) (u X : List Char)
    (hu : '{' ∉ u) :
    applySeq L (u ++ X) = u ++ applySeq L X := by
  induction L generalizing X with
  | nil => rfl
  | cons kv L ih =>
    rw [applySeq_cons, applySeq_cons, replaceAll_noOpen _ _ _ _ hu, ih]

/-- `applySeq` of the empty string is empty. -/
theorem applySeq_nil (L : List (String × String)) : applySeq L [] = [] := by
  induction L with
  | nil => rfl
  | cons kv L ih => rw [applySeq_cons, replaceAll_nil, ih]

/-- `applySeq` fixes any string with no `'{'`. -/
theorem applySeq_noOpen_fix (L : List (String × String)) (u : List Char)
    (hu : '{' ∉ u) : applySeq L u = u := by
  have h := applySeq_noOpen L u [] hu
  rw [List.append_nil, applySeq_nil, List.append_nil] at h
  exact h

/-- Processing the whole lookup at an occurrence of the placeholder of a
mapped key substitutes its value there and continues independently. -/
theorem applySeq_at_ph (L : List (String × String)) (hL : GoodLookup L)
    (q : String) (hq : ∃ kv ∈ L, kv.1 = q) (X : List Char) :
    applySeq L (phList q ++ X) = lookupVal L q ++ applySeq L X := by
  induction L generalizing X with
  | nil => rcases hq with ⟨kv, hm, _⟩; exact absurd hm (by simp)
  | cons kv L ih =>
    obtain ⟨k₁, v₁⟩ := kv
    have hhead := hL (k₁, v₁) (List.mem_cons_self _ _)
    by_cases hk : k₁ = q
    · subst hk
      rw [applySeq_cons]
      simp only at hhead ⊢
      rw [replaceAll_at_ph]
      rw [applySeq_noOpen L v₁.data _ hhead.2.2]
      have hfind : lookupVal ((k₁, v₁) :: L) k₁ = v₁.data := by
        simp [lookupVal, List.find?]
      rw [hfind, applySeq_cons]
    · have hqtail : ∃ kv ∈ L, kv.1 = q := by
        rcases hq with ⟨kv', hm, hk'⟩
        rcases List.mem_cons.mp hm with h | h
        · subst h; exact absurd hk' hk
        · exact ⟨kv', h, hk'⟩
      have hqGood : '{' ∉ q.data ∧ '}' ∉ q.data := by
        rcases hqtail with ⟨kv', hm, hk'⟩
        have := hL kv' (List.mem_cons_of_mem _ hm)
        exact hk' ▸ ⟨this.1, this.2.1⟩
      rw [applySeq_cons]
      rw [replaceAll_ph_pass k₁ v₁.data q X hk hhead.2.1 hqGood.2 hqGood.1]
      rw [ih (fun kv' hm => hL kv' (List.mem_cons_of_mem _ hm)) hqtail]
      have hfind : lookupVal ((k₁, v₁) :: L) q = lookupVal L q := by
        simp only [lookupVal, List.find?]
        rw [show ((k₁ == q) : Bool) = false by simpa using hk]
      rw [hfind, applySeq_cons]

theorem flattenPh_cons (t : List Char) (q : String)
    (d : List (List Char × String)) (tail : List Char) :
    flattenPh ((t, q) :: d) tail = t ++ phList q ++ flattenPh d tail := rfl

theorem flattenVal_cons (L : List (String × String)) (t : List Char)
    (q : String) (d : List (List Char × String)) (tail : List Char) :
    flattenVal L ((t, q) :: d) tail = t ++ lookupVal L q ++ flattenVal L d tail := rfl

/-- C5: claimed, "for every path string and every mapping from placeholder
names to string values, path-placeholder substitution replaces every
occurrence of `{key}` in the path by the mapped value for each key of the
mapping, and leaves all other characters of the path unchanged."  As stated
this fails, because `populate_path_params` applies one `str.replace` per
mapping entry *sequentially*, so substituted values participate in later
replacements (see `c5_sequential_replacement_counterexample`).  Amended:
when the mapping's keys are free of brace characters, its values contain no
opening brace, and every opening brace of the path starts a placeholder
`{k}` of a mapped key `k` (the path is `flattenPh decomp tail` with
brace-free literal chunks), the substitution replaces every placeholder
occurrence of the path by the corresponding mapped value and leaves all
other characters unchanged (result `flattenVal L decomp tail`). -/
theorem c5_populate_path_params_simultaneous (L : List (String × String))
    (decomp : List (List Char × String)) (tail : List Char)
    (hL : ∀ kv ∈ L, '{' ∉ kv.1.data ∧ '}' ∉ kv.1.data ∧ '{' ∉ kv.2.data)
    (hD : ∀ ts ∈ decomp, '{' ∉ ts.1 ∧ ∃ kv ∈ L, kv.1 = ts.2)
    (hT : '{' ∉ tail) :
    populate_path_params ⟨flattenPh decomp tail⟩ L = ⟨flattenVal L decomp tail⟩ := by
  suffices h : applySeq L (flattenPh decomp tail) = flattenVal L decomp tail by
    rw [populate_path_params_eq_applySeq]
    exact congrArg String.mk h
  induction decomp with
  | nil => exact applySeq_noOpen_fix L tail hT
  | cons ts d ih =>
    obtain ⟨t, q⟩ := ts
    have hhead := hD (t, q) (List.mem_cons_self _ _)
    rw [flattenPh_cons, flattenVal_cons, List.append_assoc,
      applySeq_noOpen L t _ hhead.1,
      applySeq_at_ph L hL q hhead.2,
      ih (fun ts hm => hD ts (List.mem_cons_of_mem _ hm)),
      List.append_assoc]

theorem c5_populate_path_params_simultaneous_witness :
    populate_path_params ⟨flattenPh [("/api/".data, "session")] "/restart".data⟩
        [("session", "s1")] =
      ⟨flattenVal [("session", "s1")] [("/api/".data, "session")] "/restart".data⟩ :=
  c5_populate_path_params_simultaneous [("session", "s1")]
    [("/api/".data, "session")] "/restart".data
    (by decide) (by decide) (by decide)

/-- C5 counterexample: on the path `"/{a}"` (whose only placeholder
occurrence is `{a}`) with the mapping `a ↦ "{b}", b ↦ "X"`, the claimed
simultaneous reading gives `"/{b}"`, but `populate_path_params` substitutes
the already-substituted value again and returns `"/X"`. -/
theorem c5_sequential_replacement_counterexample :
    flattenPh [("/".data, "a")] [] = "/{a}".data ∧
    flattenVal [("a", "{b}"), ("b", "X")] [("/".data, "a")] [] = "/{b}".data ∧
    populate_path_params "/{a}" [("a", "{b}"), ("b", "X")] = "/X" ∧
    ("/X" : String) ≠ "/{b}" := by
  refine ⟨by decide, by decide, by decide, by decide⟩

/-- C1: claimed, "the response handler raises an error exactly when the
observed status code differs from the expected status code, and when they
are equal it validates and returns the response body."  The code has the
test inverted: `if not resp.status != expected_code` is true exactly when
the status *equals* the expected code, so `handle_response` raises on the
expected status (a `TypeError`, since the value raised is the un-awaited
`handle_error` coroutine) and validates/returns the body on every
unexpected status.  This theorem evaluates the embedded code on both sides
of the failing input: status 200 with expected 200 raises, status 404 with
expected 200 validates and returns. -/
theorem c1_inverted_status_check :
    handle_response idModel
        ⟨"http://h/api/x", 200, Except.ok (JsonValue.obj [])⟩ 200 =
      RunOutcome.raises PyExc.typeError ∧
    handle_response idModel
        ⟨"http://h/api/x", 404, Except.ok (JsonValue.str "detail")⟩ 200 =
      RunOutcome.returns (JsonValue.str "detail") :=
  ⟨rfl, rfl⟩

/-- C2: claimed, "when the HTTP response arrives with the expected status
code, the generated callable returns the response body validated against
the declared response model."  The generated `api_call` executes
`return handle_response(...)` without `await`, so even with the expected
status the caller receives the un-run coroutine object of
`handle_response`, never a validated model instance; and were that
coroutine awaited, the inverted status check would raise `TypeError` on
the expected status rather than return the validated body. -/
theorem c2_returns_unawaited_coroutine :
    (plain_get_api_call "/api/x" idModel idModel 200 (JsonValue.obj [])
        ⟨"http://h"⟩ none none
        (fun _ => ⟨"http://h/api/x", 200, Except.ok (JsonValue.obj [])⟩)).result =
      CallResult.coroutine idModel
        ⟨"http://h/api/x", 200, Except.ok (JsonValue.obj [])⟩ 200 ∧
    handle_response idModel
        ⟨"http://h/api/x", 200, Except.ok (JsonValue.obj [])⟩ 200 =
      RunOutcome.raises PyExc.typeError :=
  ⟨rfl, rfl⟩

/-- C3: claimed, "the JSON-bearing error variant is produced if and only if
the response body decodes as JSON."  Counterexample: a body decoding to
JSON `null` decodes as JSON, yet `handle_error` produces the bodiless
variant, because decoded `null` is the Python object `None` and therefore
indistinguishable from the no-content sentinel in `if content is None`. -/
theorem c3_json_null_counterexample :
    (ClientResponse.mk "http://h/api/x" 404 (Except.ok JsonValue.null)).jsonBody
      = Except.ok JsonValue.null ∧
    handle_error ⟨"http://h/api/x", 404, Except.ok JsonValue.null⟩ 200 =
      RunOutcome.raises (PyExc.baseAPIException "http://h/api/x" 404 200
        ⟨"http://h/api/x", 404, Except.ok JsonValue.null⟩) :=
  ⟨rfl, rfl⟩

/-- C3 (amended): the error normalizer produces the JSON-bearing variant,
carrying the decoded payload with URL, observed and expected status codes,
if and only if the body decodes as JSON *to a value other than JSON null*;
when decoding fails or the decoded document is null, it produces the
bodiless variant with the same URL/status/expected-status data.  One of the
two is always produced (see also `c10_handle_error_always_raises`). -/
theorem c3_error_variant_selection (resp : ClientResponse)
    (expected_code : Nat) :
    (∀ v, resp.jsonBody = Except.ok v → v ≠ JsonValue.null →
      handle_error resp expected_code =
        RunOutcome.raises
          (PyExc.apiError resp.url resp.status expected_code resp v)) ∧
    ((resp.jsonBody = Except.ok JsonValue.null ∨
        (∃ e, resp.jsonBody = Except.error e)) →
      handle_error resp expected_code =
        RunOutcome.raises
          (PyExc.baseAPIException resp.url resp.status expected_code resp)) := by
  constructor
  · intro v hv hne
    cases v with
    | null => exact absurd rfl hne
    | bool b => simp only [handle_error, hv]
    | num n => simp only [handle_error, hv]
    | str s => simp only [handle_error, hv]
    | arr elems => simp only [handle_error, hv]
    | obj fields => simp only [handle_error, hv]
  · intro h
    rcases h with h | ⟨e, h⟩
    · simp only [handle_error, h]
    · simp only [handle_error, h]

theorem c3_error_variant_selection_witness :
    handle_error ⟨"http://h/api/s", 500, Except.ok (JsonValue.str "boom")⟩ 201 =
      RunOutcome.raises (PyExc.apiError "http://h/api/s" 500 201
        ⟨"http://h/api/s", 500, Except.ok (JsonValue.str "boom")⟩
        (JsonValue.str "boom")) :=
  (c3_error_variant_selection
      ⟨"http://h/api/s", 500, Except.ok (JsonValue.str "boom")⟩ 201).1
    (JsonValue.str "boom") rfl (fun h => nomatch h)

/-- C10: for every response and expected code, `handle_error` never returns
normally: it terminates by raising one of the two error variants (the
bodiless `BaseAPIException` or the JSON-bearing `APIError`), so its value
cannot be an exception for its caller to raise. -/
theorem c10_handle_error_always_raises (resp : ClientResponse)
    (expected_code : Nat) :
    handle_error resp expected_code =
      RunOutcome.raises
        (PyExc.baseAPIException resp.url resp.status expected_code resp) ∨
    (∃ v, handle_error resp expected_code =
      RunOutcome.raises
        (PyExc.apiError resp.url resp.status expected_code resp v)) := by
  cases hj : resp.jsonBody with
  | error e => exact Or.inl (by simp only [handle_error, hj])
  | ok v =>
    cases v with
    | null => exact Or.inl (by simp only [handle_error, hj])
    | bool b =>
      exact Or.inr ⟨JsonValue.bool b, by simp only [handle_error, hj]⟩
    | num n => exact Or.inr ⟨JsonValue.num n, by simp only [handle_error, hj]⟩
    | str s => exact Or.inr ⟨JsonValue.str s, by simp only [handle_error, hj]⟩
    | arr elems =>
      exact Or.inr ⟨JsonValue.arr elems, by simp only [handle_error, hj]⟩
    | obj fields =>
      exact Or.inr ⟨JsonValue.obj fields, by simp only [handle_error, hj]⟩

/-- C7: claimed, "for every verb among GET, POST, PUT, DELETE and PATCH,
given as the enum value or as a string in any letter case, the factory
returns an async callable; for every other verb input it raises
ValueError."  True for enum inputs, but false for *every* string input:
after successfully parsing the string, the dispatch chain evaluates
`method.GET` on the caller's original string argument, and `str` has no
attribute `GET`, so an `AttributeError` is raised — for `"get"` instead of
returning a callable, and for `"head"` instead of the claimed
`ValueError`.  This theorem evaluates the embedded dispatch on both the
conforming enum inputs and the failing string inputs. -/
theorem c7_method_dispatch_eval :
    wrapper_method_dispatch (MethodArg.enum Methods.GET) =
      WrapperResult.callable Methods.GET ∧
    wrapper_method_dispatch (MethodArg.enum Methods.POST) =
      WrapperResult.callable Methods.POST ∧
    wrapper_method_dispatch (MethodArg.enum Methods.PUT) =
      WrapperResult.callable Methods.PUT ∧
    wrapper_method_dispatch (MethodArg.enum Methods.DELETE) =
      WrapperResult.callable Methods.DELETE ∧
    wrapper_method_dispatch (MethodArg.enum Methods.PATCH) =
      WrapperResult.callable Methods.PATCH ∧
    wrapper_method_dispatch (MethodArg.enum Methods.HEAD) =
      WrapperResult.valueError ∧
    wrapper_method_dispatch (MethodArg.enum Methods.CONNECT) =
      WrapperResult.valueError ∧
    wrapper_method_dispatch (MethodArg.enum Methods.OPTIONS) =
      WrapperResult.valueError ∧
    wrapper_method_dispatch (MethodArg.enum Methods.TRACE) =
      WrapperResult.valueError ∧
    wrapper_method_dispatch (MethodArg.str "FOO") = WrapperResult.valueError ∧
    wrapper_method_dispatch (MethodArg.str "get") =
      WrapperResult.attributeError ∧
    wrapper_method_dispatch (MethodArg.str "GET") =
      WrapperResult.attributeError ∧
    wrapper_method_dispatch (MethodArg.str "head") =
      WrapperResult.attributeError := by
  decide

/-- C6: when the caller omits the optional `params` argument, the request is
sent with the parameter model validated from the configured parameter
defaults; for body-carrying methods, an omitted `body` is likewise replaced
by the request model validated from the configured body defaults; and
caller-supplied values are used unchanged (their `by_alias` dump is what is
sent). -/
theorem c6_defaults_application (path : String)
    (params_model request_model response_model : Model) (expected_code : Nat)
    (param_defaults body_defaults : JsonValue) (cfg : WAHAConfig)
    (session : Option Unit) (send : HttpRequest → ClientResponse) :
    (∀ p, params_model.model_validate param_defaults = some p →
      (plain_get_api_call path params_model response_model expected_code
          param_defaults cfg none session send).sent =
        [⟨Methods.GET, cfg.waha_url ++ path,
          params_model.model_dump p, none⟩]) ∧
    (∀ q, (plain_get_api_call path params_model response_model expected_code
          param_defaults cfg (some q) session send).sent =
        [⟨Methods.GET, cfg.waha_url ++ path,
          params_model.model_dump q, none⟩]) ∧
    (∀ p b, params_model.model_validate param_defaults = some p →
        request_model.model_validate body_defaults = some b →
      (plain_post_api_call path params_model request_model response_model
          expected_code body_defaults param_defaults cfg none none session
          send).sent =
        [⟨Methods.POST, cfg.waha_url ++ path, params_model.model_dump p,
          some (request_model.model_dump b)⟩]) ∧
    (∀ q c, (plain_post_api_call path params_model request_model response_model
          expected_code body_defaults param_defaults cfg (some q) (some c)
          session send).sent =
        [⟨Methods.POST, cfg.waha_url ++ path, params_model.model_dump q,
          some (request_model.model_dump c)⟩]) := by
  refine ⟨?_, ?_, ?_, ?_⟩
  · intro p hp
    simp only [plain_get_api_call, hp]
    cases session <;> rfl
  · intro q
    simp only [plain_get_api_call]
    cases session <;> rfl
  · intro p b hp hb
    simp only [plain_post_api_call, hp, hb]
    cases session <;> rfl
  · intro q c
    simp only [plain_post_api_call]
    cases session <;> rfl

theorem c6_defaults_application_witness :
    (plain_get_api_call "/api/x" idModel idModel 200 (JsonValue.obj [])
        ⟨"http://h"⟩ none none
        (fun _ => ⟨"u", 200, Except.ok JsonValue.null⟩)).sent =
      [⟨Methods.GET, WAHAConfig.waha_url ⟨"http://h"⟩ ++ "/api/x",
        Model.model_dump idModel (JsonValue.obj []), none⟩] :=
  (c6_defaults_application "/api/x" idModel idModel idModel 200
      (JsonValue.obj []) (JsonValue.obj []) ⟨"http://h"⟩ none
      (fun _ => ⟨"u", 200, Except.ok JsonValue.null⟩)).1
    (JsonValue.obj []) rfl

/-- C8: a single invocation of the generated callable issues at most one
HTTP request, and whenever it returns (handing back the `handle_response`
coroutine rather than raising during argument processing) it has issued
exactly one — no retry, no second request on failure, no return without a
request. -/
theorem c8_single_request (path : String)
    (params_model response_model : Model) (expected_code : Nat)
    (param_defaults : JsonValue) (cfg : WAHAConfig)
    (params : Option JsonValue) (session : Option Unit)
    (send : HttpRequest → ClientResponse) :
    (plain_get_api_call path params_model response_model expected_code
        param_defaults cfg params session send).sent.length ≤ 1 ∧
    (∀ m r e,
      (plain_get_api_call path params_model response_model expected_code
          param_defaults cfg params session send).result =
        CallResult.coroutine m r e →
      (plain_get_api_call path params_model response_model expected_code
          param_defaults cfg params session send).sent.length = 1) := by
  cases params with
  | some p =>
    simp only [plain_get_api_call]
    cases session <;> exact ⟨by simp, fun m r e _ => by simp⟩
  | none =>
    cases hv : params_model.model_validate param_defaults with
    | none =>
      simp only [plain_get_api_call, hv]
      exact ⟨by simp, fun m r e h => nomatch h⟩
    | some p =>
      simp only [plain_get_api_call, hv]
      cases session <;> exact ⟨by simp, fun m r e _ => by simp⟩

theorem c8_single_request_witness :
    (plain_get_api_call "/api/x" idModel idModel 200 (JsonValue.obj [])
        ⟨"http://h"⟩ none none
        (fun _ => ⟨"u", 200, Except.ok JsonValue.null⟩)).sent.length = 1 :=
  (c8_single_request "/api/x" idModel idModel 200 (JsonValue.obj [])
      ⟨"http://h"⟩ none none
      (fun _ => ⟨"u", 200, Except.ok JsonValue.null⟩)).2
    idModel ⟨"u", 200, Except.ok JsonValue.null⟩ 200 rfl

/-- C9: every request issued by a generated callable targets exactly the
configured base URL string concatenated with the (placeholder-substituted,
for path-parameter endpoints) path template — plain string concatenation,
with no separator insertion or other rewriting. -/
theorem c9_url_exact_concatenation (path : String)
    (params_model response_model : Model) (expected_code : Nat)
    (param_defaults : JsonValue) (cfg : WAHAConfig)
    (params : Option JsonValue) (session : Option Unit)
    (kwargs : List (String × String)) (send : HttpRequest → ClientResponse) :
    (∀ req ∈ (plain_get_api_call path params_model response_model
        expected_code param_defaults cfg params session send).sent,
      req.url = cfg.waha_url ++ path) ∧
    (∀ req ∈ (path_param_get_api_call path params_model response_model
        expected_code param_defaults cfg params session kwargs send).sent,
      req.url = cfg.waha_url ++ populate_path_params path kwargs) := by
  constructor
  · intro req hreq
    cases params with
    | some p =>
      simp only [plain_get_api_call] at hreq
      cases session <;> simp_all
    | none =>
      cases hv : params_model.model_validate param_defaults with
      | none => simp only [plain_get_api_call, hv] at hreq; simp_all
      | some p =>
        simp only [plain_get_api_call, hv] at hreq
        cases session <;> simp_all
  · intro req hreq
    by_cases hset : pySetEq (kwargs.map Prod.fst) (cleaned_args path) = true
    · cases params with
      | some p =>
        simp only [path_param_get_api_call, hset, if_pos] at hreq
        cases session <;> simp_all
      | none =>
        cases hv : params_model.model_validate param_defaults with
        | none =>
          simp only [path_param_get_api_call, hset, if_pos, hv] at hreq
          simp_all
        | some p =>
          simp only [path_param_get_api_call, hset, if_pos, hv] at hreq
          cases session <;> simp_all
    · simp only [path_param_get_api_call, hset, if_neg] at hreq
      simp_all

theorem c9_url_exact_concatenation_witness :
    HttpRequest.url
        ⟨Methods.GET,
          WAHAConfig.waha_url ⟨"http://h"⟩ ++
            populate_path_params "/api/{session}/x" [("session", "s1")],
          Model.model_dump idModel (JsonValue.obj []), none⟩ =
      WAHAConfig.waha_url ⟨"http://h"⟩ ++
        populate_path_params "/api/{session}/x" [("session", "s1")] :=
  (c9_url_exact_concatenation "/api/{session}/x" idModel idModel 200
      (JsonValue.obj []) ⟨"http://h"⟩ none none [("session", "s1")]
      (fun _ => ⟨"u", 200, Except.ok JsonValue.null⟩)).2
    ⟨Methods.GET,
      WAHAConfig.waha_url ⟨"http://h"⟩ ++
        populate_path_params "/api/{session}/x" [("session", "s1")],
      Model.model_dump idModel (JsonValue.obj []), none⟩
    (List.mem_singleton.mpr rfl)

/-- C4: claimed, "the accepted keyword-argument name set is exactly the set
of named placeholders occurring in the path template."  As stated this
fails: the extraction regex `/{[a-zA-Z]*}/?` requires a leading slash and
consumes an optional trailing slash, so of two adjacent placeholders
`/{a}/{b}` only `a` is extracted and the exact-name-set call raises a
usage error (see `c4_adjacent_placeholders_counterexample`).  Amended: the
generated callable raises the usage `ValueError` if and only if the set of
keyword-argument names differs from the set of names extracted by that
regex (alphabetic-only placeholder names immediately preceded by `/`, with
a placeholder immediately following a matched placeholder's consumed
trailing slash being missed). -/
theorem c4_kwargs_match_regex_extraction (path : String)
    (params_model response_model : Model) (expected_code : Nat)
    (param_defaults : JsonValue) (cfg : WAHAConfig)
    (params : Option JsonValue) (session : Option Unit)
    (kwargs : List (String × String)) (send : HttpRequest → ClientResponse) :
    (path_param_get_api_call path params_model response_model expected_code
        param_defaults cfg params session kwargs send).result =
      CallResult.raises PyExc.valueError ↔
    pySetEq (kwargs.map Prod.fst) (cleaned_args path) = false := by
  by_cases hset : pySetEq (kwargs.map Prod.fst) (cleaned_args path) = true
  · simp only [path_param_get_api_call, hset, if_pos]
    constructor
    · intro hres
      exfalso
      cases params with
      | some p => cases session <;> simp_all
      | none =>
        cases hv : params_model.model_validate param_defaults with
        | none => simp_all
        | some p => cases session <;> simp_all
    · intro hfalse
      exact absurd hfalse (by simp)
  · simp only [path_param_get_api_call, hset, if_neg]
    simp only [Bool.not_eq_true] at hset
    simp [hset]

/-- C4 counterexample: the template `"/{a}/{b}"` decomposes into brace-free
literals with exactly the placeholders `a` and `b`, yet calling the
generated callable with exactly the keyword arguments `a` and `b` raises
the usage `ValueError`, because the regex extraction sees only `a`. -/
theorem c4_adjacent_placeholders_counterexample :
    flattenPh [("/".data, "a"), ("/".data, "b")] [] = "/{a}/{b}".data ∧
    cleaned_args "/{a}/{b}" = ["a"] ∧
    (path_param_get_api_call "/{a}/{b}" idModel idModel 200 (JsonValue.obj [])
        ⟨"http://h"⟩ none none [("a", "x"), ("b", "y")]
        (fun _ => ⟨"u", 200, Except.ok JsonValue.null⟩)).result =
      CallResult.raises PyExc.valueError := by
  refine ⟨by decide, by decide, ?_⟩
  rfl
